import Mathlib

/-!
Verification of the redundant multi-file I/O coordinator of the io_utils
repository (`MultiFileIO.h` / `MultifileIO.cpp`, over the single-file handle
of `FileIO.h`).

The C++ code is embedded shallowly.  Operating-system calls (`os_open`,
`os_read`, `os_write`, `os_seek`, `os_tell`, `os_size`, `os_commit`,
`os_chsize`, `os_eof`) are modelled by oracle arguments carrying the value the
OS call would return (and, for reads, the bytes that end up in the destination
buffer); everything the repository's own code does with those values is
translated literally.  Machine integers: `f_handle`, positions, sizes and OS
results are `Int`; the 16-bit `error_flags` bitfield is a `Nat` below `2 ^ 16`
manipulated with `|||`; the C `int` truncation in `compare` is modelled
explicitly (`toCInt`).
-/

set_option autoImplicit false

namespace IoUtils

/--
Error-flag bitfield of `FileIO.h` (`struct error_flags`).  `value` is the
16-bit union view; the individual 1-bit fields occupy the bit positions in
declaration order: open, reopen, eacces, eexists, einval, emfile, enoent,
invalid (low byte, the "bad" bits), then commit, seek, tell, read, write,
corrupt (the "fail" bits).
-/
structure error_flags where
  value : Nat
deriving DecidableEq

namespace error_flags

/-- Bit of the `open` field (bit 0). -/
def openBit : Nat := 1
/-- Bit of the `reopen` field (bit 1). -/
def reopenBit : Nat := 2
/-- Bit of the `eacces` field (bit 2). -/
def eaccesBit : Nat := 4
/-- Bit of the `einval` field (bit 4). -/
def einvalBit : Nat := 16
/-- Bit of the `invalid` field (bit 7). -/
def invalidBit : Nat := 128
/-- Bit of the `seek` field (bit 9). -/
def seekBit : Nat := 512
/-- Bit of the `tell` field (bit 10). -/
def tellBit : Nat := 1024
/-- Bit of the `read` field (bit 11). -/
def readBit : Nat := 2048
/-- Bit of the `write` field (bit 12). -/
def writeBit : Nat := 4096

/-- `error_flags::good()`: no error flag set. -/
def good (e : error_flags) : Bool := e.value = 0

/-- `error_flags::fail()`: some error flag set. -/
def fail (e : error_flags) : Bool := e.value ≠ 0

/-- `error_flags::bad()`: some flag of the low (critical) byte set. -/
def bad (e : error_flags) : Bool := e.value % 256 ≠ 0

end error_flags

/-- Low bit of a machine word: the value an assignment to a `uint16_t : 1`
bitfield stores. -/
def bit1 (n : Nat) : Nat := n % 2

/--
`error_flags::fill_open_errors(err)`: resets the flags, then assigns each of
the 1-bit fields `eacces`, `eexists`, `einval`, `emfile`, `enoent` the low bit
of `err` masked with the corresponding errno constant (Linux values:
EACCES = 13, EEXIST = 17, EINVAL = 22, EMFILE = 24, ENOENT = 2).
-/
def fill_open_errors (err : Nat) : error_flags :=
  ⟨bit1 (err &&& 13) * 4 + bit1 (err &&& 17) * 8 + bit1 (err &&& 22) * 16 +
    bit1 (err &&& 24) * 32 + bit1 (err &&& 2) * 64⟩

/--
State of one read-write single-file handle (`FileRW`, i.e.
`BasicFile<3>` of `FileIO.h`): the platform file descriptor (`-1` when
closed) and the mutable error flags.
-/
structure FileRW where
  f_handle : Int
  e_flags : error_flags
deriving DecidableEq

/-- Outcome of one `os_open` call: the errno value `err` and the descriptor
the OS stored into `f_handle` (`-1` on failure). -/
structure OpenOracle where
  err : Nat
  fh : Int
deriving DecidableEq

/-- Outcome of one `os_read` call: its return value `res` and the bytes
standing in the destination buffer after the call. -/
structure ReadOutcome where
  res : Int
  data : List Nat
deriving DecidableEq

namespace FileRW

/-- Default-constructed `BasicFile`: `f_handle = -1`, `e_flags = 1`. -/
def init : FileRW := ⟨-1, ⟨1⟩⟩

/-- `BasicFile::is_open()`: the descriptor is valid. -/
def is_open (f : FileRW) : Bool := f.f_handle ≠ -1

/-- `BasicFile::fail()`. -/
def fail (f : FileRW) : Bool := f.e_flags.fail

/-- `BasicFile::good()`. -/
def good (f : FileRW) : Bool := f.e_flags.good

/-- `BasicFile::close()` (writer version): if open, commit and close the
descriptor; the error flags are not touched. -/
def close (f : FileRW) : FileRW :=
  if f.is_open then { f with f_handle := -1 } else f

/--
`BasicFile::open(Path, Flags)`, as used through `FileRW::open_`: clears the
flags; an already-open handle gets the `reopen` flag and is closed (failure);
otherwise the OS result decides: a valid descriptor with errno 0 succeeds with
clear flags, any other outcome sets the errno-derived bits plus the `open`
flag and leaves the handle closed.  Returns `true` on success (the
`BasicFile::open(...) == 0` test of `FileRW::open_`).  `Flags` is forwarded to
the OS and has no further effect here.
-/
def open_ (f : FileRW) (Flags : Int) (o : OpenOracle) : Bool × FileRW :=
  if f.f_handle ≠ -1 then
    (false, FileRW.close { f with e_flags := ⟨error_flags.reopenBit⟩ })
  else if o.fh = -1 ∨ o.err ≠ 0 then
    (false, { f_handle := -1, e_flags := ⟨(fill_open_errors o.err).value ||| error_flags.openBit⟩ })
  else
    (true, { f_handle := o.fh, e_flags := ⟨0⟩ })

/-- `BasicFile::read(buf, Size)` given the `os_read` outcome: success iff the
OS returned exactly `Size`; otherwise the `read` flag is set, plus `invalid`
when the OS returned `-1`. -/
def read (f : FileRW) (Size : Nat) (o : ReadOutcome) : Bool × FileRW :=
  if o.res = (Size : Int) then (false, f)
  else
    (true, { f with e_flags :=
      ⟨f.e_flags.value ||| (if o.res = -1 then error_flags.readBit ||| error_flags.invalidBit
        else error_flags.readBit)⟩ })

/-- `BasicFile::write(buf, Size)` given the `os_write` result: success iff the
OS returned exactly `Size`; otherwise the `write` flag is set, plus `invalid`
when the OS returned `-1`. -/
def write (f : FileRW) (Size : Nat) (res : Int) : Bool × FileRW :=
  if res = (Size : Int) then (false, f)
  else
    (true, { f with e_flags :=
      ⟨f.e_flags.value ||| (if res = -1 then error_flags.writeBit ||| error_flags.invalidBit
        else error_flags.writeBit)⟩ })

/-- `BasicFile::commit()` given the `os_commit` result: a handle that is open
and good commits, failing (with the `invalid` flag) iff the OS result is
nonzero; any other handle reports failure without calling the OS. -/
def commit (f : FileRW) (res : Int) : Bool × FileRW :=
  if f.is_open && f.good then
    if res ≠ 0 then
      (true, { f with e_flags := ⟨f.e_flags.value ||| error_flags.invalidBit⟩ })
    else (false, f)
  else (true, f)

/-- `BasicFile::seek(Pos, Dir)` given the `os_seek` result: the OS result is
returned; `-1` additionally sets the `seek` and `invalid` flags. -/
def seek (f : FileRW) (res : Int) : Int × FileRW :=
  if res = -1 then
    (-1, { f with e_flags :=
      ⟨f.e_flags.value ||| (error_flags.seekBit ||| error_flags.invalidBit)⟩ })
  else (res, f)

/-- `BasicFile::tell()` given the `os_tell` result: the OS result is returned;
`-1` additionally sets the `tell` and `invalid` flags. -/
def tell (f : FileRW) (res : Int) : Int × FileRW :=
  if res = -1 then
    (-1, { f with e_flags :=
      ⟨f.e_flags.value ||| (error_flags.tellBit ||| error_flags.invalidBit)⟩ })
  else (res, f)

/-- `BasicFile::length()` given the `os_size` result: the OS result is
returned; `-1` additionally sets the `invalid` flag. -/
def length (f : FileRW) (res : Int) : Int × FileRW :=
  if res = -1 then
    (-1, { f with e_flags := ⟨f.e_flags.value ||| error_flags.invalidBit⟩ })
  else (res, f)

/-- `BasicFile::eof()` given the `os_eof` result (`1`, `0` or `-1`): the OS
result is returned; `-1` additionally sets the `invalid` flag. -/
def eof (f : FileRW) (res : Int) : Int × FileRW :=
  if res = -1 then
    (-1, { f with e_flags := ⟨f.e_flags.value ||| error_flags.invalidBit⟩ })
  else (res, f)

/-- `BasicFile::chsize(NewSize)` given the `os_chsize` errno: success iff the
errno is 0; otherwise `invalid` is set and the 1-bit fields `eacces` and
`einval` are ORed with the low bit of the errno masked with EBADF|ENOSPC = 29
resp. EINVAL = 22. -/
def chsize (f : FileRW) (err : Nat) : Bool × FileRW :=
  if err ≠ 0 then
    (true, { f with e_flags :=
      ⟨f.e_flags.value ||| error_flags.invalidBit ||| bit1 (err &&& 29) * 4 |||
        bit1 (err &&& 22) * 16⟩ })
  else (false, f)

end FileRW

/--
State of the redundant coordinator (`MultiFile` of `MultiFileIO.h`): the
primary handle, the fixed array of five secondary slots, the number of active
secondaries and the recorded open flags.  (The thread-local verification
buffer is call-scoped scratch state and is not part of the record.)
-/
structure MultiFile where
  hdl : FileRW
  copies : Fin 5 → FileRW
  NumCopies : Int
  OpenFlags : Int

/-- Default-constructed `MultiFile`: every handle default-constructed,
`NumCopies = 0`, `OpenFlags = 0`. -/
def MultiFile.init : MultiFile := ⟨FileRW.init, fun _ => FileRW.init, 0, 0⟩

/--
Indices visited by the `for (int i = 0; i < NumCopies; i++)` loops of every
`MultiFile` method, in loop order.  (Indexing `copies` beyond slot 4 would be
undefined behaviour in the source, so the list is capped at 5.)
-/
def MultiFile.activeIdx (m : MultiFile) : List (Fin 5) :=
  (List.finRange 5).filter (fun i => (i.val : Int) < m.NumCopies)

namespace MultiFile

/-- `MultiFile::open_(Path, Flags)`: reset `NumCopies` to 0, store the flags,
then open the primary handle. -/
def open_ (m : MultiFile) (Flags : Int) (o : OpenOracle) : Bool × MultiFile :=
  let p := m.hdl.open_ Flags o
  (p.1, { m with hdl := p.2, NumCopies := 0, OpenFlags := Flags })

/--
`MultiFile::add(Path)`: reject when `NumCopies < 0 || NumCopies >= 5`;
otherwise open slot `NumCopies` with the stored `OpenFlags` and, on success,
increment `NumCopies`.  A failed open leaves the count unchanged (the staging
slot keeps whatever state the failed open gave it).
-/
def add (m : MultiFile) (o : OpenOracle) : Bool × MultiFile :=
  if h : m.NumCopies < 0 ∨ 5 ≤ m.NumCopies then (false, m)
  else
    let k : Fin 5 := ⟨m.NumCopies.toNat, by omega⟩
    let p := (m.copies k).open_ m.OpenFlags o
    if p.1 then
      (true, { m with copies := Function.update m.copies k p.2,
                      NumCopies := m.NumCopies + 1 })
    else
      (false, { m with copies := Function.update m.copies k p.2 })

/-- `MultiFile::close()`: close the primary, then every active secondary.
Inactive slots are not closed. -/
def close (m : MultiFile) : MultiFile :=
  { m with hdl := m.hdl.close,
           copies := fun i =>
             if (i.val : Int) < m.NumCopies then (m.copies i).close else m.copies i }

/-- `MultiFile::fail()`: OR of `fail()` over the primary and every active
secondary. -/
def fail (m : MultiFile) : Bool :=
  m.activeIdx.foldl (fun b i => b || (m.copies i).fail) m.hdl.fail

/-- `MultiFile::good()`: AND of `good()` over the primary and every active
secondary. -/
def good (m : MultiFile) : Bool :=
  m.activeIdx.foldl (fun b i => b && (m.copies i).good) m.hdl.good

/-- `MultiFile::is_open()`: AND of `is_open()` over the primary and every
active secondary. -/
def is_open (m : MultiFile) : Bool :=
  m.activeIdx.foldl (fun b i => b && (m.copies i).is_open) m.hdl.is_open

/-- `MultiFile::is_closed()`: negation of the OR of `is_open()` over the
primary and every active secondary. -/
def is_closed (m : MultiFile) : Bool :=
  !(m.activeIdx.foldl (fun b i => b || (m.copies i).is_open) m.hdl.is_open)

/--
`MultiFile::commit()`: commit the primary, then each active secondary,
combining the per-handle error results with `B &= copies[i].commit()`.  Each
loop iteration touches only slot `i`, which no earlier iteration modified, so
the per-slot states are updated pointwise.
-/
def commit (m : MultiFile) (oPrim : Int) (oCop : Fin 5 → Int) : Bool × MultiFile :=
  let b0 := (m.hdl.commit oPrim).1
  (m.activeIdx.foldl (fun b i => b && ((m.copies i).commit (oCop i)).1) b0,
   { m with hdl := (m.hdl.commit oPrim).2,
            copies := fun i =>
              if (i.val : Int) < m.NumCopies then ((m.copies i).commit (oCop i)).2
              else m.copies i })

/--
`MultiFile::chsize(NewSize)`: resize the primary, then each active secondary,
combining errors with `Error |= copies[i].chsize(NewSize)`.
-/
def chsize (m : MultiFile) (NewSize : Int) (oPrim : Nat) (oCop : Fin 5 → Nat) :
    Bool × MultiFile :=
  let e0 := (m.hdl.chsize oPrim).1
  (m.activeIdx.foldl (fun e i => e || ((m.copies i).chsize (oCop i)).1) e0,
   { m with hdl := (m.hdl.chsize oPrim).2,
            copies := fun i =>
              if (i.val : Int) < m.NumCopies then ((m.copies i).chsize (oCop i)).2
              else m.copies i })

/--
`MultiFile::seek(Pos, Dir)`: seek the primary, then each active secondary,
collapsing the accumulated position to `-1` on any disagreement
(`P = P != copies[i].seek(Pos, Dir) ? -1 : P`).
-/
def seek (m : MultiFile) (Pos : Int) (Dir : Int) (oPrim : Int) (oCop : Fin 5 → Int) :
    Int × MultiFile :=
  let p0 := (m.hdl.seek oPrim).1
  (m.activeIdx.foldl (fun p i => if p ≠ ((m.copies i).seek (oCop i)).1 then -1 else p) p0,
   { m with hdl := (m.hdl.seek oPrim).2,
            copies := fun i =>
              if (i.val : Int) < m.NumCopies then ((m.copies i).seek (oCop i)).2
              else m.copies i })

/-- `MultiFile::tell()`: like `seek`, with the `tell` of every handle. -/
def tell (m : MultiFile) (oPrim : Int) (oCop : Fin 5 → Int) : Int × MultiFile :=
  let p0 := (m.hdl.tell oPrim).1
  (m.activeIdx.foldl (fun p i => if p ≠ ((m.copies i).tell (oCop i)).1 then -1 else p) p0,
   { m with hdl := (m.hdl.tell oPrim).2,
            copies := fun i =>
              if (i.val : Int) < m.NumCopies then ((m.copies i).tell (oCop i)).2
              else m.copies i })

/-- `MultiFile::length()`: like `seek`, with the `length` of every handle. -/
def length (m : MultiFile) (oPrim : Int) (oCop : Fin 5 → Int) : Int × MultiFile :=
  let p0 := (m.hdl.length oPrim).1
  (m.activeIdx.foldl (fun p i => if p ≠ ((m.copies i).length (oCop i)).1 then -1 else p) p0,
   { m with hdl := (m.hdl.length oPrim).2,
            copies := fun i =>
              if (i.val : Int) < m.NumCopies then ((m.copies i).length (oCop i)).2
              else m.copies i })

/-- `MultiFile::eof()`: like `seek`, with the `eof` of every handle. -/
def eof (m : MultiFile) (oPrim : Int) (oCop : Fin 5 → Int) : Int × MultiFile :=
  let p0 := (m.hdl.eof oPrim).1
  (m.activeIdx.foldl (fun p i => if p ≠ ((m.copies i).eof (oCop i)).1 then -1 else p) p0,
   { m with hdl := (m.hdl.eof oPrim).2,
            copies := fun i =>
              if (i.val : Int) < m.NumCopies then ((m.copies i).eof (oCop i)).2
              else m.copies i })

/--
`MultiFile::write(Buf, Size)`: write the primary, then each active secondary,
combining errors with `Error = copies[i].write(_Buf, Size) || Error` (every
write is issued, regardless of earlier failures).  Besides the aggregate error
and the new state, the model returns the trace of issued writes — destination
(`none` = primary, `some i` = secondary slot `i`) paired with the byte range
written — in issue order.
-/
def write (m : MultiFile) (Buf : List Nat) (Size : Nat) (oPrim : Int)
    (oCop : Fin 5 → Int) : (Bool × List (Option (Fin 5) × List Nat)) × MultiFile :=
  let e0 := (m.hdl.write Size oPrim).1
  ((m.activeIdx.foldl (fun e i => ((m.copies i).write Size (oCop i)).1 || e) e0,
    (none, Buf) :: m.activeIdx.map (fun i => (some i, Buf))),
   { m with hdl := (m.hdl.write Size oPrim).2,
            copies := fun i =>
              if (i.val : Int) < m.NumCopies then ((m.copies i).write Size (oCop i)).2
              else m.copies i })

/--
`MultiFile::read(Ptr, Size)`: read the primary into the caller's buffer, then
each active secondary into the scratch buffer, accumulating
`Error = copies[i].read(..) || copies[i].fail() || Error` followed by
`Error = memcmp(Ptr, Buf, Size) != 0 || Error`; the primary contributes
`hdl.read(..) || hdl.fail()`.  Besides the aggregate error and the new state,
the model returns the caller's buffer content, which only the primary's read
writes.
-/
def read (m : MultiFile) (Size : Nat) (oPrim : ReadOutcome) (oCop : Fin 5 → ReadOutcome) :
    (Bool × List Nat) × MultiFile :=
  let e0 := (m.hdl.read Size oPrim).1 || (m.hdl.read Size oPrim).2.fail
  ((m.activeIdx.foldl
      (fun e i =>
        decide (oPrim.data ≠ (oCop i).data) ||
          (((m.copies i).read Size (oCop i)).1 ||
            (((m.copies i).read Size (oCop i)).2.fail || e))) e0,
    oPrim.data),
   { m with hdl := (m.hdl.read Size oPrim).2,
            copies := fun i =>
              if (i.val : Int) < m.NumCopies then ((m.copies i).read Size (oCop i)).2
              else m.copies i })

end MultiFile

/-- One coordinator call together with its OS oracles: the alphabet of the
coordinator's transition system. -/
inductive Op where
  | openp (Flags : Int) (o : OpenOracle)
  | addc (o : OpenOracle)
  | closec
  | writec (Buf : List Nat) (Size : Nat) (oPrim : Int) (oCop : Fin 5 → Int)
  | readc (Size : Nat) (oPrim : ReadOutcome) (oCop : Fin 5 → ReadOutcome)
  | commitc (oPrim : Int) (oCop : Fin 5 → Int)
  | chsizec (NewSize : Int) (oPrim : Nat) (oCop : Fin 5 → Nat)
  | seekc (Pos : Int) (Dir : Int) (oPrim : Int) (oCop : Fin 5 → Int)
  | tellc (oPrim : Int) (oCop : Fin 5 → Int)
  | lengthc (oPrim : Int) (oCop : Fin 5 → Int)
  | eofc (oPrim : Int) (oCop : Fin 5 → Int)

/-- State reached after one coordinator call (return values discarded).
`open`, `create` and `excl` all funnel through `MultiFile::open_` with
filtered flags, so `Op.openp` covers the three. -/
def MultiFile.apply (m : MultiFile) : Op → MultiFile
  | .openp F o => (m.open_ F o).2
  | .addc o => (m.add o).2
  | .closec => m.close
  | .writec b s p c => (m.write b s p c).2
  | .readc s p c => (m.read s p c).2
  | .commitc p c => (m.commit p c).2
  | .chsizec n p c => (m.chsize n p c).2
  | .seekc pos dir p c => (m.seek pos dir p c).2
  | .tellc p c => (m.tell p c).2
  | .lengthc p c => (m.length p c).2
  | .eofc p c => (m.eof p c).2

/-- Coordinator states reachable from a default-constructed `MultiFile` by
any sequence of calls. -/
inductive Reachable : MultiFile → Prop where
  | init : Reachable MultiFile.init
  | step {m : MultiFile} (op : Op) : Reachable m → Reachable (m.apply op)

/-- Calls that neither reopen the primary (resetting `NumCopies`) nor close
the coordinator. -/
def Op.keepsSecondaries : Op → Bool
  | .openp _ _ => false
  | .closec => false
  | _ => true

/-- Number of positions at which two equal-length byte sequences differ
(the inner comparison loop of `compare`). -/
def countMismatch (a b : List Nat) : Nat :=
  (a.zip b).countP (fun p => decide (p.1 ≠ p.2))

/-- Truncation of a nonnegative 64-bit count to a 32-bit C `int`
(`return int(cnt)` in `compare`). -/
def toCInt (n : Nat) : Int := ((n : Int) + 2 ^ 31) % 2 ^ 32 - 2 ^ 31

/--
The `while (L1)` chunk loop of `compare`: each iteration reads one chunk of
up to 4096 bytes from each file.  `e1 k` / `e2 k` is the error result of the
current (k-th) chunk `read` on the first / second file — `true` means
`BasicFile::read` reported failure, and the loop returns the sentinel `-1`
(`if (F1.read(V1.data(), L)) return -1;`, likewise for `F2`); on success the
read delivers the file's next chunk, whose mismatches are counted into `cnt`.
When the contents are exhausted the loop falls through to
`return int(cnt)`.  The recursive call shifts the oracles so that index 0 is
always the current chunk.
-/
def compareLoop (e1 e2 : Nat → Bool) (v1 v2 : List Nat) (cnt : Nat) : Int :=
  if h : v1 = [] then toCInt cnt
  else if e1 0 then -1
  else if e2 0 then -1
  else
    compareLoop (fun k => e1 (k + 1)) (fun k => e2 (k + 1)) (v1.drop 4096) (v2.drop 4096)
      (cnt + countMismatch (v1.take 4096) (v2.take 4096))
termination_by v1.length
decreasing_by
  simp only [List.length_drop]
  have : 0 < v1.length := List.length_pos.mpr h
  omega

/--
`mz::io::compare(P1, P2)`: `ok1`/`ok2` state whether the two read-only opens
succeed; `c1`/`c2` are the two files' byte contents; `lenfail1`/`lenfail2`
state whether the `F1.length()`/`F2.length()` query fails at the OS level
(returning `-1`) instead of reporting the content's length; `e1`/`e2` give
each chunk read's error result as in `compareLoop`.  Mirrors the source:
`-1` if either open fails; `-1` if the two reported lengths differ (a failed
length query reports `-1`, so it differs from any real length); then the
chunk loop.  When both length queries fail the reported lengths are equal
(`-1`) and the source enters the loop asking `read` for `size_t(-1)` bytes —
a request the `int`-returning `os_read` can never match, so that first chunk
read fails and the result is the sentinel `-1`, which the model states
directly in the `L1 < 0` arm.
-/
def compare (ok1 ok2 : Bool) (c1 c2 : List Nat) (lenfail1 lenfail2 : Bool)
    (e1 e2 : Nat → Bool) : Int :=
  if !ok1 then -1
  else if !ok2 then -1
  else
    let L1 : Int := if lenfail1 then -1 else (c1.length : Int)
    let L2 : Int := if lenfail2 then -1 else (c2.length : Int)
    if L1 < L2 then -1
    else if L2 < L1 then -1
    else if L1 < 0 then -1
    else compareLoop e1 e2 c1 c2 0

/-! ### Helper lemmas -/

theorem lor_eq_zero_iff (a b : Nat) : a ||| b = 0 ↔ a = 0 ∧ b = 0 := by
  constructor
  · intro h
    have hb : ∀ i, (a ||| b).testBit i = false := by simp [h]
    constructor
    · refine Nat.eq_of_testBit_eq fun i => ?_
      have := hb i
      simp only [Nat.testBit_lor, Bool.or_eq_false_iff] at this
      simp [this.1]
    · refine Nat.eq_of_testBit_eq fun i => ?_
      have := hb i
      simp only [Nat.testBit_lor, Bool.or_eq_false_iff] at this
      simp [this.2]
  · rintro ⟨rfl, rfl⟩
    rfl

theorem mem_activeIdx (m : MultiFile) (i : Fin 5) :
    i ∈ m.activeIdx ↔ (i.val : Int) < m.NumCopies := by
  simp [MultiFile.activeIdx, List.mem_filter, List.mem_finRange]

theorem foldl_or_left {α : Type} (g : α → Bool) (l : List α) (b : Bool) :
    l.foldl (fun e i => g i || e) b = (b || l.any g) := by
  induction l generalizing b with
  | nil => simp
  | cons x xs ih =>
    simp only [List.foldl_cons, List.any_cons, ih]
    cases b <;> cases g x <;> simp

theorem foldl_or_right {α : Type} (g : α → Bool) (l : List α) (b : Bool) :
    l.foldl (fun e i => e || g i) b = (b || l.any g) := by
  induction l generalizing b with
  | nil => simp
  | cons x xs ih =>
    simp only [List.foldl_cons, List.any_cons, ih]
    cases b <;> cases g x <;> simp

theorem foldl_and_right {α : Type} (g : α → Bool) (l : List α) (b : Bool) :
    l.foldl (fun e i => e && g i) b = (b && l.all g) := by
  induction l generalizing b with
  | nil => simp
  | cons x xs ih =>
    simp only [List.foldl_cons, List.all_cons, ih]
    cases b <;> cases g x <;> simp

theorem foldl_agree_bot {α : Type} (g : α → Int) (l : List α) :
    l.foldl (fun p i => if p ≠ g i then -1 else p) (-1) = -1 := by
  induction l with
  | nil => rfl
  | cons x xs ih => simpa [ite_self] using ih

theorem foldl_agree {α : Type} (g : α → Int) (l : List α) (v : Int) :
    l.foldl (fun p i => if p ≠ g i then -1 else p) v =
      if ∀ i ∈ l, g i = v then v else -1 := by
  induction l generalizing v with
  | nil => simp
  | cons x xs ih =>
    simp only [List.foldl_cons]
    by_cases hx : g x = v
    · rw [if_neg (by simp [hx]), ih]
      by_cases hxs : ∀ i ∈ xs, g i = v
      · rw [if_pos hxs, if_pos (by simpa [hx] using hxs)]
      · rw [if_neg hxs, if_neg (by simp only [List.mem_cons]; intro h; exact hxs fun i hi => h i (Or.inr hi))]
    · rw [if_pos (by simpa using Ne.symm hx), foldl_agree_bot]
      rw [if_neg (by intro h; exact hx (h x (List.mem_cons_self x xs)))]

theorem FileRW_fail_false_iff (f : FileRW) : f.fail = false ↔ f.e_flags.value = 0 := by
  simp [FileRW.fail, error_flags.fail]

theorem FileRW_seek_fst (f : FileRW) (res : Int) : (f.seek res).1 = res := by
  unfold FileRW.seek
  split <;> simp_all

theorem FileRW_tell_fst (f : FileRW) (res : Int) : (f.tell res).1 = res := by
  unfold FileRW.tell
  split <;> simp_all

theorem FileRW_length_fst (f : FileRW) (res : Int) : (f.length res).1 = res := by
  unfold FileRW.length
  split <;> simp_all

theorem FileRW_write_fst (f : FileRW) (Size : Nat) (res : Int) :
    (f.write Size res).1 = decide (res ≠ (Size : Int)) := by
  unfold FileRW.write
  split <;> simp_all

theorem FileRW_read_fst (f : FileRW) (Size : Nat) (o : ReadOutcome) :
    (f.read Size o).1 = decide (o.res ≠ (Size : Int)) := by
  unfold FileRW.read
  split <;> simp_all

theorem FileRW_read_snd_fail (f : FileRW) (Size : Nat) (o : ReadOutcome) :
    (f.read Size o).2.fail = (f.fail || decide (o.res ≠ (Size : Int))) := by
  unfold FileRW.read
  split
  · simp_all
  · have hne : o.res ≠ (Size : Int) := by assumption
    have hX : (if o.res = -1 then error_flags.readBit ||| error_flags.invalidBit
        else error_flags.readBit) ≠ 0 := by
      split <;> decide
    simp [FileRW.fail, error_flags.fail, hne, lor_eq_zero_iff, hX]

theorem MultiFile_read_error_iff (m : MultiFile) (Size : Nat) (oPrim : ReadOutcome)
    (oCop : Fin 5 → ReadOutcome) :
    (m.read Size oPrim oCop).1.1 = false ↔
      (oPrim.res = (Size : Int) ∧ m.hdl.e_flags.value = 0 ∧
       ∀ i ∈ m.activeIdx, ((oCop i).res = (Size : Int) ∧
         (m.copies i).e_flags.value = 0 ∧ (oCop i).data = oPrim.data)) := by
  simp only [MultiFile.read]
  have hstep : (fun (e : Bool) (i : Fin 5) =>
      decide (oPrim.data ≠ (oCop i).data) ||
        (((m.copies i).read Size (oCop i)).1 ||
          (((m.copies i).read Size (oCop i)).2.fail || e))) =
      fun e i =>
        (decide (oPrim.data ≠ (oCop i).data) ||
          (((m.copies i).read Size (oCop i)).1 ||
            ((m.copies i).read Size (oCop i)).2.fail)) || e := by
    funext e i
    simp [Bool.or_assoc]
  rw [hstep, foldl_or_left (fun i =>
    decide (oPrim.data ≠ (oCop i).data) ||
      (((m.copies i).read Size (oCop i)).1 || ((m.copies i).read Size (oCop i)).2.fail))]
  simp only [FileRW_read_fst, FileRW_read_snd_fail, ← FileRW_fail_false_iff,
    Bool.or_eq_false_iff, List.any_eq_false, Bool.or_eq_true, Bool.not_eq_true, not_or,
    decide_eq_false_iff_not, not_not]
  constructor
  · rintro ⟨⟨h1, h2, _⟩, h4⟩
    refine ⟨h1, h2, fun i hi => ?_⟩
    have := h4 i hi
    tauto
  · rintro ⟨h1, h2, h3⟩
    refine ⟨⟨h1, h2, h1⟩, fun i hi => ?_⟩
    have := h3 i hi
    tauto

/--
C1 (corrected).  `read(buffer, size)` always hands the caller the primary's
bytes, and reports success exactly when the primary's read delivered `size`
bytes, every active secondary's read delivered `size` matching bytes, **and**
no participant carries a (sticky) error flag; the three failure sources the
claim lists all force a failure report, but they are not exhaustive — a
participant whose current reads all succeed still triggers failure through a
previously recorded error flag.
-/
theorem C1_read_amended (m : MultiFile) (Size : Nat) (oPrim : ReadOutcome)
    (oCop : Fin 5 → ReadOutcome) :
    (m.read Size oPrim oCop).1.2 = oPrim.data ∧
    ((m.read Size oPrim oCop).1.1 = false ↔
      (oPrim.res = (Size : Int) ∧ m.hdl.e_flags.value = 0 ∧
       ∀ i ∈ m.activeIdx, ((oCop i).res = (Size : Int) ∧
         (m.copies i).e_flags.value = 0 ∧ (oCop i).data = oPrim.data))) :=
  ⟨rfl, MultiFile_read_error_iff m Size oPrim oCop⟩

/-- Witness for C1 (amended): a concrete flag-free coordinator with no
secondaries, on which a successful primary read yields the primary's bytes
and a success report. -/
theorem C1_read_amended_witness :
    ((⟨⟨3, ⟨0⟩⟩, fun _ => FileRW.init, 0, 2⟩ : MultiFile).read 1 ⟨1, [3]⟩
        (fun _ => ⟨1, [3]⟩)).1.2 = [3] ∧
    ((⟨⟨3, ⟨0⟩⟩, fun _ => FileRW.init, 0, 2⟩ : MultiFile).read 1 ⟨1, [3]⟩
        (fun _ => ⟨1, [3]⟩)).1.1 = false :=
  ⟨(C1_read_amended ⟨⟨3, ⟨0⟩⟩, fun _ => FileRW.init, 0, 2⟩ 1 ⟨1, [3]⟩
      (fun _ => ⟨1, [3]⟩)).1,
    (C1_read_amended ⟨⟨3, ⟨0⟩⟩, fun _ => FileRW.init, 0, 2⟩ 1 ⟨1, [3]⟩
      (fun _ => ⟨1, [3]⟩)).2.mpr ⟨rfl, rfl, by decide⟩⟩

/-- Coordinator whose primary is open but carries the `write` error flag from
an earlier short write: open succeeded, then a 1-byte write wrote 0 bytes. -/
def mC1 : MultiFile := ((MultiFile.init.open_ 2 ⟨0, 3⟩).2.write [0] 1 0 (fun _ => 0)).2

/--
C1 counterexample.  On `mC1` (zero secondaries, primary open with a sticky
error flag) a read whose primary OS read succeeds and returns the requested
byte — so that the claim's three failure sources are all absent and the claim
asserts success — still reports failure.
-/
theorem C1_read_counterexample :
    mC1.NumCopies = 0 ∧ (mC1.hdl.read 1 ⟨1, [7]⟩).1 = false ∧
    (mC1.read 1 ⟨1, [7]⟩ (fun _ => ⟨1, [7]⟩)).1.1 = true := by
  refine ⟨rfl, by decide, ?_⟩
  decide

/--
C9 (confirmed).  `read` reports failure whenever the primary or any active
secondary already has a sticky error flag set (`fail()`), regardless of the
current reads' outcomes and of data consistency.
-/
theorem C9_read_sticky_fail (m : MultiFile) (Size : Nat) (oPrim : ReadOutcome)
    (oCop : Fin 5 → ReadOutcome)
    (h : m.hdl.fail = true ∨ ∃ i ∈ m.activeIdx, (m.copies i).fail = true) :
    (m.read Size oPrim oCop).1.1 = true := by
  by_contra hc
  rw [Bool.not_eq_true] at hc
  have hf := (MultiFile_read_error_iff m Size oPrim oCop).mp hc
  rcases h with h | ⟨i, hi, h⟩
  · rw [← FileRW_fail_false_iff] at hf
    exact absurd h (by simp [hf.2.1])
  · have := (hf.2.2 i hi).2.1
    rw [← FileRW_fail_false_iff] at this
    exact absurd h (by simp [this])

/-- Coordinator whose primary is open but carries a sticky `write` error
flag, with no secondaries. -/
def mC9 : MultiFile :=
  { hdl := ⟨3, ⟨4096⟩⟩, copies := fun _ => FileRW.init, NumCopies := 0, OpenFlags := 2 }

/-- Witness for C9: a concrete coordinator with a sticky primary error flag
on which a fully successful, consistent read still reports failure. -/
theorem C9_read_sticky_fail_witness :
    mC9.hdl.fail = true ∧ (mC9.read 1 ⟨1, [0]⟩ (fun _ => ⟨1, [0]⟩)).1.1 = true :=
  ⟨by decide, C9_read_sticky_fail mC9 1 ⟨1, [0]⟩ (fun _ => ⟨1, [0]⟩) (Or.inl (by decide))⟩

/--
C2 (confirmed).  `write(buffer, size)` issues the same byte range to the
primary and then to each active secondary in registration order — the trace
of issued writes does not depend on any participant's outcome, so secondaries
are attempted even when the primary's write fails — and it reports success
exactly when every participant (primary and each active secondary) wrote the
full length.
-/
theorem C2_write (m : MultiFile) (Buf : List Nat) (Size : Nat) (oPrim : Int)
    (oCop : Fin 5 → Int) :
    (m.write Buf Size oPrim oCop).1.2 =
      ((none : Option (Fin 5)), Buf) :: m.activeIdx.map (fun i => (some i, Buf)) ∧
    ((m.write Buf Size oPrim oCop).1.1 = false ↔
      (oPrim = (Size : Int) ∧ ∀ i ∈ m.activeIdx, oCop i = (Size : Int))) := by
  refine ⟨rfl, ?_⟩
  simp only [MultiFile.write]
  rw [foldl_or_left (fun i => ((m.copies i).write Size (oCop i)).1)]
  simp [FileRW_write_fst]

/-- Witness for C2: on a fresh coordinator a full-length write reports
success. -/
theorem C2_write_witness :
    ((⟨FileRW.init, fun _ => FileRW.init, 0, 0⟩ : MultiFile).write [7] 1 1
      (fun _ => 1)).1.1 = false :=
  (C2_write ⟨FileRW.init, fun _ => FileRW.init, 0, 0⟩ [7] 1 1 (fun _ => 1)).2.mpr
    ⟨rfl, by decide⟩

/--
C4 (confirmed).  Each of `seek`, `tell` and `length` returns the common
reported value when the primary and every active secondary report the same
value, and the sentinel `-1` as soon as any active secondary's reported value
differs from the primary's (the accumulated value collapses to `-1` and `-1`
is absorbing, so any disagreement among the participants yields `-1`).
-/
theorem C4_seek_tell_length (m : MultiFile) (Pos Dir oPrim : Int) (oCop : Fin 5 → Int) :
    ((m.seek Pos Dir oPrim oCop).1 =
      if ∀ i ∈ m.activeIdx, oCop i = oPrim then oPrim else -1) ∧
    ((m.tell oPrim oCop).1 =
      if ∀ i ∈ m.activeIdx, oCop i = oPrim then oPrim else -1) ∧
    ((m.length oPrim oCop).1 =
      if ∀ i ∈ m.activeIdx, oCop i = oPrim then oPrim else -1) := by
  refine ⟨?_, ?_, ?_⟩
  · unfold MultiFile.seek
    simp only [FileRW_seek_fst]
    convert foldl_agree oCop m.activeIdx oPrim using 2
  · unfold MultiFile.tell
    simp only [FileRW_tell_fst]
    convert foldl_agree oCop m.activeIdx oPrim using 2
  · unfold MultiFile.length
    simp only [FileRW_length_fst]
    convert foldl_agree oCop m.activeIdx oPrim using 2

/-- Witness for C4: with no secondaries, `seek` returns the primary's
reported position. -/
theorem C4_seek_tell_length_witness :
    ((⟨FileRW.init, fun _ => FileRW.init, 0, 0⟩ : MultiFile).seek 0 0 5
      (fun _ => 5)).1 = 5 :=
  (C4_seek_tell_length ⟨FileRW.init, fun _ => FileRW.init, 0, 0⟩ 0 0 5
    (fun _ => 5)).1.trans (if_pos (by decide))

/-- Coordinator with one active secondary, both handles open with clear
flags: primary opened, then one secondary added. -/
def mC3 : MultiFile := ((MultiFile.init.open_ 2 ⟨0, 3⟩).2.add ⟨0, 7⟩).2

/--
C3 (code bug).  The claim — and the source's own documentation of
`MultiFile::commit` ("return true if any commit operation failed") — require
a conservative-OR aggregate, but the implementation accumulates the
per-handle error results with `B &= copies[i].commit()`.  Evaluated at the
failing input: on `mC3` (one active secondary), an `os_commit` that fails on
the primary (nonzero result) and succeeds on the secondary gives a primary
commit error of `true` and secondary commit error of `false`, yet the
aggregate `commit` reports `false` (success).
-/
theorem C3_commit_bug : mC3.NumCopies = 1 ∧
    (mC3.hdl.commit 1).1 = true ∧
    ((mC3.copies 0).commit 0).1 = false ∧
    (mC3.commit 1 (fun _ => 0)).1 = false := by
  decide

theorem add_NumCopies (m : MultiFile) (o : OpenOracle) :
    (m.add o).2.NumCopies = m.NumCopies ∨
    ((m.add o).2.NumCopies = m.NumCopies + 1 ∧ 0 ≤ m.NumCopies ∧ m.NumCopies < 5) := by
  by_cases hc : m.NumCopies < 0 ∨ 5 ≤ m.NumCopies
  · left
    simp [MultiFile.add, dif_pos hc]
  · rcases Bool.dichotomy ((m.copies ⟨m.NumCopies.toNat, by omega⟩).open_ m.OpenFlags o).1
      with hp | hp
    · left
      simp [MultiFile.add, dif_neg hc, hp]
    · right
      refine ⟨?_, by omega, by omega⟩
      simp [MultiFile.add, dif_neg hc, hp]

theorem apply_NumCopies_cases (m : MultiFile) (op : Op) :
    (m.apply op).NumCopies = 0 ∨ (m.apply op).NumCopies = m.NumCopies ∨
    ((m.apply op).NumCopies = m.NumCopies + 1 ∧ m.NumCopies < 5) := by
  cases op with
  | openp F o => exact Or.inl rfl
  | addc o =>
    rcases add_NumCopies m o with h | ⟨h1, _, h3⟩
    · exact Or.inr (Or.inl h)
    · exact Or.inr (Or.inr ⟨h1, h3⟩)
  | closec => exact Or.inr (Or.inl rfl)
  | writec b s p c => exact Or.inr (Or.inl rfl)
  | readc s p c => exact Or.inr (Or.inl rfl)
  | commitc p c => exact Or.inr (Or.inl rfl)
  | chsizec n p c => exact Or.inr (Or.inl rfl)
  | seekc pos dir p c => exact Or.inr (Or.inl rfl)
  | tellc p c => exact Or.inr (Or.inl rfl)
  | lengthc p c => exact Or.inr (Or.inl rfl)
  | eofc p c => exact Or.inr (Or.inl rfl)

/--
C7 (confirmed).  In every reachable coordinator state the secondary count
satisfies `0 ≤ NumCopies ≤ 5`; it is `0` after construction; any reopen of
the primary (`open`/`create`/`excl`, all through `MultiFile::open_`) resets it
to `0`; and `add` either leaves it unchanged or increments it by one, the
latter only from a value in `[0, 5)`.
-/
theorem C7_secondary_count_invariant :
    (∀ m : MultiFile, Reachable m → 0 ≤ m.NumCopies ∧ m.NumCopies ≤ 5) ∧
    MultiFile.init.NumCopies = 0 ∧
    (∀ (m : MultiFile) (F : Int) (o : OpenOracle), (m.open_ F o).2.NumCopies = 0) ∧
    (∀ (m : MultiFile) (o : OpenOracle),
      (m.add o).2.NumCopies = m.NumCopies ∨
      ((m.add o).2.NumCopies = m.NumCopies + 1 ∧ 0 ≤ m.NumCopies ∧ m.NumCopies < 5)) := by
  refine ⟨?_, rfl, fun m F o => rfl, fun m o => add_NumCopies m o⟩
  intro m h
  induction h with
  | init => exact ⟨by decide, by decide⟩
  | step op hm ih =>
    rename_i m'
    rcases apply_NumCopies_cases m' op with h | h | ⟨h1, h2⟩
    · rw [h]
      exact ⟨by decide, by decide⟩
    · rw [h]
      exact ih
    · rw [h1]
      omega

/-- Witness for C7: the invariant holds at the initial state. -/
theorem C7_secondary_count_invariant_witness :
    Reachable MultiFile.init ∧
    (0 ≤ MultiFile.init.NumCopies ∧ MultiFile.init.NumCopies ≤ 5) :=
  ⟨Reachable.init, C7_secondary_count_invariant.1 MultiFile.init Reachable.init⟩

/--
C5 (confirmed).  `add(path)` leaves the coordinator's state — the count, the
primary, the stored flags and every active secondary — unchanged and reports
failure when five secondaries are registered (the whole record is untouched)
or when the underlying open of the staging slot with the stored `OpenFlags`
fails; when that open succeeds it reports success and increments the count by
exactly one, again leaving the primary, the flags and the previously active
secondaries unchanged.
-/
theorem C5_add (m : MultiFile) (o : OpenOracle) :
    (5 ≤ m.NumCopies → (m.add o).1 = false ∧ (m.add o).2 = m) ∧
    (∀ (h0 : 0 ≤ m.NumCopies) (h5 : m.NumCopies < 5),
      (((m.copies ⟨m.NumCopies.toNat, by omega⟩).open_ m.OpenFlags o).1 = false →
        (m.add o).1 = false ∧ (m.add o).2.NumCopies = m.NumCopies ∧
        (m.add o).2.hdl = m.hdl ∧ (m.add o).2.OpenFlags = m.OpenFlags ∧
        ∀ i : Fin 5, (i.val : Int) < m.NumCopies → (m.add o).2.copies i = m.copies i) ∧
      (((m.copies ⟨m.NumCopies.toNat, by omega⟩).open_ m.OpenFlags o).1 = true →
        (m.add o).1 = true ∧ (m.add o).2.NumCopies = m.NumCopies + 1 ∧
        (m.add o).2.hdl = m.hdl ∧ (m.add o).2.OpenFlags = m.OpenFlags ∧
        ∀ i : Fin 5, (i.val : Int) < m.NumCopies → (m.add o).2.copies i = m.copies i)) := by
  constructor
  · intro hge
    have hc : m.NumCopies < 0 ∨ 5 ≤ m.NumCopies := Or.inr hge
    refine ⟨?_, ?_⟩ <;> simp [MultiFile.add, dif_pos hc]
  · intro h0 h5
    have hc : ¬(m.NumCopies < 0 ∨ 5 ≤ m.NumCopies) := by omega
    constructor
    · intro hopen
      have hadd : m.add o = (false,
          ⟨m.hdl, Function.update m.copies ⟨m.NumCopies.toNat, by omega⟩
            (((m.copies ⟨m.NumCopies.toNat, by omega⟩).open_ m.OpenFlags o).2),
            m.NumCopies, m.OpenFlags⟩) := by
        simp only [MultiFile.add, dif_neg hc]
        simp [hopen]
      rw [hadd]
      refine ⟨rfl, rfl, rfl, rfl, fun i hi => ?_⟩
      apply Function.update_noteq
      intro he
      rw [he] at hi
      simp only [Fin.val_mk] at hi
      omega
    · intro hopen
      have hadd : m.add o = (true,
          ⟨m.hdl, Function.update m.copies ⟨m.NumCopies.toNat, by omega⟩
            (((m.copies ⟨m.NumCopies.toNat, by omega⟩).open_ m.OpenFlags o).2),
            m.NumCopies + 1, m.OpenFlags⟩) := by
        simp only [MultiFile.add, dif_neg hc]
        simp [hopen]
      rw [hadd]
      refine ⟨rfl, rfl, rfl, rfl, fun i hi => ?_⟩
      apply Function.update_noteq
      intro he
      rw [he] at hi
      simp only [Fin.val_mk] at hi
      omega

/-- Witness for C5: on a fresh coordinator, an `add` whose underlying open
succeeds reports success and takes the count from 0 to 1. -/
theorem C5_add_witness :
    (0 : Int) ≤ MultiFile.init.NumCopies ∧ MultiFile.init.NumCopies < 5 ∧
    (MultiFile.init.add ⟨0, 7⟩).1 = true ∧
    (MultiFile.init.add ⟨0, 7⟩).2.NumCopies = MultiFile.init.NumCopies + 1 :=
  ⟨by decide, by decide,
    (((C5_add MultiFile.init ⟨0, 7⟩).2 (by decide) (by decide)).2 (by decide)).1,
    (((C5_add MultiFile.init ⟨0, 7⟩).2 (by decide) (by decide)).2 (by decide)).2.1⟩

/-- State reached by: open the primary (failing at the OS level, so the
primary handle stays closed while `OpenFlags` is recorded), then successfully
add one secondary. -/
def mC10 : MultiFile :=
  MultiFile.apply (MultiFile.apply MultiFile.init (Op.openp 2 ⟨2, -1⟩)) (Op.addc ⟨0, 7⟩)

/--
C10 (confirmed).  The state `mC10` — primary open failed, one secondary
subsequently added successfully — is reachable, and on it `is_open()` and
`is_closed()` both return `false`: `is_closed` is not the logical negation of
`is_open`.
-/
theorem C10_open_closed_gap :
    Reachable mC10 ∧ mC10.is_open = false ∧ mC10.is_closed = false :=
  ⟨Reachable.step (Op.addc ⟨0, 7⟩) (Reachable.step (Op.openp 2 ⟨2, -1⟩) Reachable.init),
    by decide, by decide⟩

/-- Primary opened, then one secondary added successfully (pre-state of the
C8 counterexample). -/
def mC8b : MultiFile := ((MultiFile.init.open_ 2 ⟨0, 3⟩).2.add ⟨0, 7⟩).2

/-- The state `mC8b` after the primary is re-opened (without any intervening
`close()` of the coordinator). -/
def mC8c : MultiFile := (mC8b.open_ 2 ⟨0, 4⟩).2

/--
C8 counterexample.  After a successful `add` (first conjunct), re-opening the
primary — with `close()` never called on the coordinator — resets the
secondary count to zero while leaving the registered secondary's handle open;
a subsequent `write` issues no write to that secondary (its trace holds only
the primary event), so the secondary silently stops participating even though
`close()` was never called, contradicting the claim.
-/
theorem C8_counterexample :
    ((MultiFile.init.open_ 2 ⟨0, 3⟩).2.add ⟨0, 7⟩).1 = true ∧
    mC8c.NumCopies = 0 ∧
    (mC8c.copies 0).is_open = true ∧
    (mC8c.write [5] 1 (-1) (fun _ => -1)).1.2 = [((none : Option (Fin 5)), [5])] := by
  decide

/--
C8 (corrected).  Once an `add` has succeeded, the secondary participates in
every subsequent coordinator operation until `close()` is called on the whole
coordinator **or the primary is re-opened** (`open`/`create`/`excl` reset the
secondary count, silently deactivating registered secondaries without closing
them): an active secondary is among the loop indices of every fan-out
operation, every `write` issues it the same byte range as the primary, its
data influences every `read` verdict, and every operation other than a reopen
or `close` keeps it active.
-/
theorem C8_amended (m : MultiFile) (i : Fin 5) (h : (i.val : Int) < m.NumCopies) :
    i ∈ m.activeIdx ∧
    (∀ (Buf : List Nat) (Size : Nat) (oPrim : Int) (oCop : Fin 5 → Int),
      ((some i : Option (Fin 5)), Buf) ∈ (m.write Buf Size oPrim oCop).1.2) ∧
    (∀ (Size : Nat) (oPrim : ReadOutcome) (oCop : Fin 5 → ReadOutcome),
      (oCop i).data ≠ oPrim.data → (m.read Size oPrim oCop).1.1 = true) ∧
    (∀ op : Op, op.keepsSecondaries = true → (i.val : Int) < (m.apply op).NumCopies) := by
  have hmem : i ∈ m.activeIdx := (mem_activeIdx m i).mpr h
  refine ⟨hmem, ?_, ?_, ?_⟩
  · intro Buf Size oPrim oCop
    simp only [MultiFile.write]
    exact List.mem_cons_of_mem _ (List.mem_map.mpr ⟨i, hmem, rfl⟩)
  · intro Size oPrim oCop hdata
    by_contra hc
    rw [Bool.not_eq_true] at hc
    have hf := (MultiFile_read_error_iff m Size oPrim oCop).mp hc
    exact hdata ((hf.2.2 i hmem).2.2)
  · intro op hop
    cases op with
    | openp F o => simp [Op.keepsSecondaries] at hop
    | closec => simp [Op.keepsSecondaries] at hop
    | addc o =>
      show (i.val : Int) < (m.add o).2.NumCopies
      rcases add_NumCopies m o with h1 | ⟨h1, _, _⟩ <;> rw [h1] <;> omega
    | writec b s p c => exact h
    | readc s p c => exact h
    | commitc p c => exact h
    | chsizec n p c => exact h
    | seekc pos dir p c => exact h
    | tellc p c => exact h
    | lengthc p c => exact h
    | eofc p c => exact h

/-- Primary opened and one secondary added: the concrete state for the C8
witness. -/
def mC8w : MultiFile := ((MultiFile.init.open_ 2 ⟨0, 3⟩).2.add ⟨0, 7⟩).2

/-- Witness for C8 (amended): on a coordinator with one active secondary, the
secondary is active and a concrete `write` issues it the primary's byte
range. -/
theorem C8_amended_witness :
    ((0 : Fin 5).val : Int) < mC8w.NumCopies ∧
    ((some (0 : Fin 5) : Option (Fin 5)), [9]) ∈ (mC8w.write [9] 1 1 (fun _ => 1)).1.2 :=
  ⟨by decide, (C8_amended mC8w 0 (by decide)).2.1 [9] 1 1 (fun _ => 1)⟩

theorem countMismatch_nil (b : List Nat) : countMismatch [] b = 0 := rfl

theorem countMismatch_append (a b c d : List Nat) (h : a.length = c.length) :
    countMismatch (a ++ b) (c ++ d) = countMismatch a c + countMismatch b d := by
  unfold countMismatch
  rw [List.zip_append h, List.countP_append]

theorem countMismatch_self (c : List Nat) : countMismatch c c = 0 := by
  induction c with
  | nil => rfl
  | cons x xs ih =>
    simp only [countMismatch, List.zip_cons_cons, List.countP_cons] at ih ⊢
    rw [ih]
    simp

theorem countMismatch_replicate (n : Nat) (a b : Nat) (h : a ≠ b) :
    countMismatch (List.replicate n a) (List.replicate n b) = n := by
  induction n with
  | zero => rfl
  | succ k ih =>
    simp only [List.replicate_succ, countMismatch, List.zip_cons_cons, List.countP_cons]
      at ih ⊢
    rw [ih]
    simp [h]

theorem compareLoop_success (n : Nat) :
    ∀ (v1 v2 : List Nat) (cnt : Nat) (e1 e2 : Nat → Bool), v1.length ≤ n →
      v1.length = v2.length → (∀ k, e1 k = false) → (∀ k, e2 k = false) →
      compareLoop e1 e2 v1 v2 cnt = toCInt (cnt + countMismatch v1 v2) := by
  induction n with
  | zero =>
    intro v1 v2 cnt e1 e2 h1 _ _ _
    have hv : v1 = [] := List.eq_nil_of_length_eq_zero (Nat.le_zero.mp h1)
    subst hv
    rw [compareLoop, dif_pos rfl, countMismatch_nil, Nat.add_zero]
  | succ m ih =>
    intro v1 v2 cnt e1 e2 h1 h2 he1 he2
    by_cases hv : v1 = []
    · subst hv
      rw [compareLoop, dif_pos rfl, countMismatch_nil, Nat.add_zero]
    · rw [compareLoop, dif_neg hv, if_neg (by simp [he1 0]), if_neg (by simp [he2 0])]
      have hlen : 0 < v1.length := List.length_pos.mpr hv
      rw [ih (v1.drop 4096) (v2.drop 4096)
        (cnt + countMismatch (v1.take 4096) (v2.take 4096))
        (fun j => e1 (j + 1)) (fun j => e2 (j + 1))
        (by simp [List.length_drop]; omega) (by simp [List.length_drop]; omega)
        (fun j => he1 (j + 1)) (fun j => he2 (j + 1))]
      have hsplit : countMismatch v1 v2 =
          countMismatch (v1.take 4096) (v2.take 4096) +
            countMismatch (v1.drop 4096) (v2.drop 4096) := by
        conv_lhs => rw [← List.take_append_drop 4096 v1, ← List.take_append_drop 4096 v2]
        rw [countMismatch_append _ _ _ _ (by simp [List.length_take, h2])]
      rw [hsplit, Nat.add_assoc]

theorem compareLoop_fail (n : Nat) :
    ∀ (v1 v2 : List Nat) (cnt : Nat) (e1 e2 : Nat → Bool), v1.length ≤ n →
      (∃ k, k * 4096 < v1.length ∧ (e1 k = true ∨ e2 k = true)) →
      compareLoop e1 e2 v1 v2 cnt = -1 := by
  induction n with
  | zero =>
    intro v1 v2 cnt e1 e2 h1 hex
    rcases hex with ⟨j, hj, _⟩
    omega
  | succ m ih =>
    intro v1 v2 cnt e1 e2 h1 hex
    rcases hex with ⟨j, hj, hor⟩
    have hv : v1 ≠ [] := by
      intro h
      subst h
      simp at hj
    rw [compareLoop, dif_neg hv]
    by_cases h10 : e1 0 = true
    · rw [if_pos h10]
    · rw [if_neg h10]
      by_cases h20 : e2 0 = true
      · rw [if_pos h20]
      · rw [if_neg h20]
        have hj0 : j ≠ 0 := by
          rintro rfl
          rcases hor with h | h
          · exact h10 h
          · exact h20 h
        apply ih (v1.drop 4096) (v2.drop 4096) _ (fun k => e1 (k + 1)) (fun k => e2 (k + 1))
        · simp only [List.length_drop]
          omega
        · refine ⟨j - 1, ?_, ?_⟩
          · simp only [List.length_drop]
            omega
          · have hjj : j - 1 + 1 = j := by omega
            rcases hor with h | h
            · exact Or.inl (by show e1 (j - 1 + 1) = true; rw [hjj]; exact h)
            · exact Or.inr (by show e2 (j - 1 + 1) = true; rw [hjj]; exact h)

theorem toCInt_small (n : Nat) (h : n < 2 ^ 31) : toCInt n = n := by
  unfold toCInt
  rw [Int.emod_eq_of_lt (by positivity) (by omega)]
  omega

theorem compare_opens (ok1 ok2 : Bool) (c1 c2 : List Nat) (lf1 lf2 : Bool)
    (e1 e2 : Nat → Bool) (h : ok1 = false ∨ ok2 = false) :
    compare ok1 ok2 c1 c2 lf1 lf2 e1 e2 = -1 := by
  rcases h with rfl | rfl
  · rfl
  · cases ok1 <;> rfl

theorem compare_lenfail (ok1 ok2 : Bool) (c1 c2 : List Nat) (lf1 lf2 : Bool)
    (e1 e2 : Nat → Bool) (h : lf1 = true ∨ lf2 = true) :
    compare ok1 ok2 c1 c2 lf1 lf2 e1 e2 = -1 := by
  rcases Bool.dichotomy ok1 with rfl | rfl
  · rfl
  · rcases Bool.dichotomy ok2 with rfl | rfl
    · rfl
    · cases lf1 <;> cases lf2
      · simp at h
      · show (if (c1.length : Int) < -1 then (-1 : Int)
            else if (-1 : Int) < (c1.length : Int) then -1
            else if (c1.length : Int) < 0 then -1
            else compareLoop e1 e2 c1 c2 0) = -1
        split_ifs <;> omega
      · show (if (-1 : Int) < (c2.length : Int) then (-1 : Int)
            else if (c2.length : Int) < -1 then -1
            else if (-1 : Int) < 0 then -1
            else compareLoop e1 e2 c1 c2 0) = -1
        split_ifs <;> omega
      · show (if (-1 : Int) < -1 then (-1 : Int)
            else if (-1 : Int) < -1 then -1
            else if (-1 : Int) < 0 then -1
            else compareLoop e1 e2 c1 c2 0) = -1
        split_ifs <;> omega

theorem compare_lendiff (ok1 ok2 : Bool) (c1 c2 : List Nat) (lf1 lf2 : Bool)
    (e1 e2 : Nat → Bool) (h : c1.length ≠ c2.length) :
    compare ok1 ok2 c1 c2 lf1 lf2 e1 e2 = -1 := by
  rcases Bool.dichotomy ok1 with rfl | rfl
  · rfl
  · rcases Bool.dichotomy ok2 with rfl | rfl
    · rfl
    · rcases Bool.dichotomy lf1 with rfl | rfl
      · rcases Bool.dichotomy lf2 with rfl | rfl
        · show (if (c1.length : Int) < (c2.length : Int) then (-1 : Int)
              else if (c2.length : Int) < (c1.length : Int) then -1
              else if (c1.length : Int) < 0 then -1
              else compareLoop e1 e2 c1 c2 0) = -1
          split_ifs <;> omega
        · exact compare_lenfail true true c1 c2 false true e1 e2 (Or.inr rfl)
      · exact compare_lenfail true true c1 c2 true lf2 e1 e2 (Or.inl rfl)

theorem compare_readfail (c1 c2 : List Nat) (e1 e2 : Nat → Bool)
    (h : c1.length = c2.length)
    (hex : ∃ k, k * 4096 < c1.length ∧ (e1 k = true ∨ e2 k = true)) :
    compare true true c1 c2 false false e1 e2 = -1 := by
  show (if (c1.length : Int) < (c2.length : Int) then (-1 : Int)
      else if (c2.length : Int) < (c1.length : Int) then -1
      else if (c1.length : Int) < 0 then -1
      else compareLoop e1 e2 c1 c2 0) = -1
  split_ifs with h1 h2 h3
  · rfl
  · rfl
  · rfl
  · exact compareLoop_fail c1.length c1 c2 0 e1 e2 (le_refl _) hex

theorem compare_eq_toCInt (c1 c2 : List Nat) (e1 e2 : Nat → Bool)
    (h : c1.length = c2.length) (he1 : ∀ k, e1 k = false) (he2 : ∀ k, e2 k = false) :
    compare true true c1 c2 false false e1 e2 = toCInt (countMismatch c1 c2) := by
  show (if (c1.length : Int) < (c2.length : Int) then (-1 : Int)
      else if (c2.length : Int) < (c1.length : Int) then -1
      else if (c1.length : Int) < 0 then -1
      else compareLoop e1 e2 c1 c2 0) = toCInt (countMismatch c1 c2)
  split_ifs with h1 h2 h3
  · omega
  · omega
  · omega
  · rw [compareLoop_success c1.length c1 c2 0 e1 e2 (le_refl _) h he1 he2, Nat.zero_add]

/--
C6 counterexample.  On two equal-length files that differ at every one of
their `2 ^ 31` byte positions — both opens succeeding, both length queries
succeeding, and every chunk read succeeding — `compare` returns `-2 ^ 31`:
the `int64_t` mismatch counter truncated to a 32-bit C `int` by
`return int(cnt)`, while the exact count of differing byte positions is
`2 ^ 31`, so the claim's "returns the exact count of byte positions at which
the two files differ" fails at this input.
-/
theorem C6_compare_counterexample :
    compare true true (List.replicate (2 ^ 31) 0) (List.replicate (2 ^ 31) 1) false false
      (fun _ => false) (fun _ => false) = -(2 ^ 31) ∧
    countMismatch (List.replicate (2 ^ 31) 0) (List.replicate (2 ^ 31) 1) = 2 ^ 31 ∧
    (-(2 ^ 31) : Int) ≠ ((2 ^ 31 : Nat) : Int) := by
  have hcm := countMismatch_replicate (2 ^ 31) 0 1 (by decide)
  have hbase := compare_eq_toCInt (List.replicate (2 ^ 31) 0) (List.replicate (2 ^ 31) 1)
    (fun _ => false) (fun _ => false) (by rw [List.length_replicate, List.length_replicate])
    (fun _ => rfl) (fun _ => rfl)
  rw [hcm] at hbase
  refine ⟨?_, hcm, by decide⟩
  rw [hbase]
  decide

/--
C6 (corrected).  `compare(A, B)` returns `-1` when either open fails, when
either `length()` query fails at the OS level, when the two files' reported
lengths differ, or when any chunk read needed to cover the files fails; with
both opens succeeding, both lengths reported, equal lengths and every chunk
read succeeding, it returns the count of differing byte positions
**truncated to a 32-bit C int** — hence `0` for byte-identical files, and
the exact count whenever fewer than `2 ^ 31` positions differ (the
`int64_t` counter is converted by `return int(cnt)`).
-/
theorem C6_compare_amended (ok1 ok2 : Bool) (c1 c2 : List Nat) (lenfail1 lenfail2 : Bool)
    (e1 e2 : Nat → Bool) :
    ((ok1 = false ∨ ok2 = false) → compare ok1 ok2 c1 c2 lenfail1 lenfail2 e1 e2 = -1) ∧
    ((lenfail1 = true ∨ lenfail2 = true) →
      compare ok1 ok2 c1 c2 lenfail1 lenfail2 e1 e2 = -1) ∧
    (c1.length ≠ c2.length → compare ok1 ok2 c1 c2 lenfail1 lenfail2 e1 e2 = -1) ∧
    (ok1 = true → ok2 = true → lenfail1 = false → lenfail2 = false →
      c1.length = c2.length →
      ((∃ k, k * 4096 < c1.length ∧ (e1 k = true ∨ e2 k = true)) →
        compare ok1 ok2 c1 c2 lenfail1 lenfail2 e1 e2 = -1) ∧
      ((∀ k, e1 k = false) → (∀ k, e2 k = false) →
        compare ok1 ok2 c1 c2 lenfail1 lenfail2 e1 e2 = toCInt (countMismatch c1 c2) ∧
        (c1 = c2 → compare ok1 ok2 c1 c2 lenfail1 lenfail2 e1 e2 = 0) ∧
        (countMismatch c1 c2 < 2 ^ 31 →
          compare ok1 ok2 c1 c2 lenfail1 lenfail2 e1 e2 = (countMismatch c1 c2 : Int)))) := by
  refine ⟨compare_opens ok1 ok2 c1 c2 lenfail1 lenfail2 e1 e2,
    compare_lenfail ok1 ok2 c1 c2 lenfail1 lenfail2 e1 e2,
    compare_lendiff ok1 ok2 c1 c2 lenfail1 lenfail2 e1 e2, ?_⟩
  intro hk1 hk2 hl1 hl2 hlen
  subst hk1
  subst hk2
  subst hl1
  subst hl2
  refine ⟨compare_readfail c1 c2 e1 e2 hlen, ?_⟩
  intro he1 he2
  have hbase : compare true true c1 c2 false false e1 e2 = toCInt (countMismatch c1 c2) :=
    compare_eq_toCInt c1 c2 e1 e2 hlen he1 he2
  refine ⟨hbase, ?_, ?_⟩
  · intro he
    subst he
    rw [hbase, countMismatch_self]
    decide
  · intro hsmall
    rw [hbase, toCInt_small _ hsmall]

/-- Witness for C6 (amended): two length-2 contents differing in one
position, with all OS calls succeeding, compare to exactly 1. -/
theorem C6_compare_amended_witness :
    countMismatch [0, 1] [0, 2] < 2 ^ 31 ∧
    compare true true [0, 1] [0, 2] false false (fun _ => false) (fun _ => false) =
      (countMismatch [0, 1] [0, 2] : Int) :=
  ⟨by decide,
    ((((C6_compare_amended true true [0, 1] [0, 2] false false (fun _ => false)
          (fun _ => false)).2.2.2 rfl rfl rfl rfl (by decide)).2 (fun _ => rfl)
        (fun _ => rfl)).2.2 (by decide))⟩

end IoUtils
